import Mathlib

/-!
Verification of the fslocate command-line client.

Shallow embedding of `go-client/src/fslocate-client/fslocate-client.go`.

The program is a single function `main`.  Everything it touches besides its
own control flow is external: the argument vector `os.Args`, the `database/sql`
package (with the `postgres` driver behind it), `strings.ToLower` and standard
output.  The embedding makes these explicit:

* the calls `main` performs are recorded, in program order, as a list of
  `Event`s (the trace of one run);
* the answers of `database/sql` are read from a `Driver` record, over which
  every general theorem quantifies;
* `strings.ToLower` maps every rune of its argument through the case table
  `unicode.ToLower`; that table is the parameter `lowerRune`.
-/

namespace FsLocate

/-! ## The outside world -/

/-- The result cursor `*sql.Rows` handed back by a successful `st.Query()`.
`rows` holds, for each row the cursor yields before `Next` first returns
`false`, the outcome of scanning its single column into a `*string`:
`some v` when `Scan` stores `v` and returns `nil`, `none` when `Scan` returns
an error (it then leaves the destination as it found it).  `err` is what
`r.Err()` would report once `Next` has returned `false`: `none` at the regular
end of the result set, `some msg` when iteration was cut short. -/
structure Rows where
  rows : List (Option String)
  err : Option String

/-- The answers of `database/sql` to the three calls that can fail.  An error
value is represented by its message, the text `fmt.Println(err)` writes. -/
structure Driver where
  /-- Answer of `sql.Open(driverName, dataSourceName)`: `none` is a nil error. -/
  openErr : String → String → Option String
  /-- Answer of `db.Prepare(query)`: `none` is a nil error. -/
  prepareErr : String → Option String
  /-- Answer of `st.Query(args...)` on the statement prepared from the text. -/
  query : String → List String → Except String Rows

/-- One observable step of a run of `main`, with the answer it received. -/
inductive Event where
  /-- Call `fmt.Println(s)`: writes `s` and a newline to standard output. -/
  | println (s : String)
  /-- Call `sql.Open(driverName, dsn)`; `ok` tells whether the error was nil. -/
  | sqlOpen (driverName dsn : String) (ok : Bool)
  /-- Call `db.Prepare(text)`; `ok` tells whether the error was nil. -/
  | prepare (text : String) (ok : Bool)
  /-- Call `st.Query(args...)`; `ok` tells whether the error was nil. -/
  | query (args : List String) (ok : Bool)
  /-- Call `r.Next()` and the boolean it returned. -/
  | next (more : Bool)
  /-- Call `r.Scan(&path)`; `ok` tells whether the (discarded) error was nil. -/
  | scan (ok : Bool)
  /-- Deferred `r.Close()`. -/
  | rowsClose
  /-- Deferred `db.Close()`. -/
  | dbClose
  deriving DecidableEq, Repr

/-! ## The program -/

/-- Go `strings.ToLower`: every rune mapped through the case table. -/
def ToLower (lowerRune : Char → Char) (s : String) : String :=
  String.mk (s.data.map lowerRune)

/-- The message printed when the argument count is wrong (line 13). -/
def usageMessage : String := "ERROR: must provide search string on cmd line"

/-- First argument of `sql.Open` (line 17). -/
def driverName : String := "postgres"

/-- Second argument of `sql.Open` (line 17). -/
def dataSourceName : String :=
  "user=midpeter444 password=jiffylube dbname=fslocate sslmode=disable"

/-- The argument of `db.Prepare` (line 24), for `os.Args[1] = fragment`. -/
def queryText (lowerRune : Char → Char) (fragment : String) : String :=
  "select path from files where lower(path) like '%" ++ ToLower lowerRune fragment ++ "%'"

/-- Effect of `r.Scan(&path)` on the destination variable: a successful scan
stores the column value, a failed scan leaves the variable alone.  The boolean
tells whether the returned error was nil. -/
def scanInto (outcome : Option String) (dest : String) : String × Bool :=
  match outcome with
  | some v => (v, true)
  | none => (dest, false)

/-- The loop of lines 37 to 41, run on the rows the cursor still holds.  Each
iteration declares a fresh `path` (the zero value `""`), scans into it,
discards the error of `Scan`, and prints `path`.  The loop ends when `Next`
returns `false`; `r.Err()` is never consulted. -/
def rowLoop : List (Option String) → List Event
  | [] => [Event.next false]
  | outcome :: rest =>
    let path : String := ""
    let scanned := scanInto outcome path
    Event.next true :: Event.scan scanned.2 :: Event.println scanned.1 :: rowLoop rest

/-- Lines 30 to 41: execute the prepared statement and print the rows.  The
`defer r.Close()` of line 35 is registered only after a successful query and
runs when this part returns. -/
def runQuery (d : Driver) (text : String) : List Event :=
  match d.query text [] with
  | Except.error msg => [Event.query [] false, Event.println msg]
  | Except.ok r => Event.query [] true :: (rowLoop r.rows ++ [Event.rowsClose])

/-- Lines 24 to 41: prepare the statement, then `runQuery`. -/
def runPrepared (d : Driver) (text : String) : List Event :=
  match d.prepareErr text with
  | some msg => [Event.prepare text false, Event.println msg]
  | none => Event.prepare text true :: runQuery d text

/-- Go `main` (lines 11 to 42) as a function from the answers of the outside
world and `os.Args` to the trace of the run.  The `defer db.Close()` of line 22
is registered only after a successful open and runs on every later return. -/
def main (lowerRune : Char → Char) (d : Driver) (args : List String) : List Event :=
  if args.length ≠ 2 then
    [Event.println usageMessage]
  else
    match d.openErr driverName dataSourceName with
    | some msg => [Event.sqlOpen driverName dataSourceName false, Event.println msg]
    | none =>
      Event.sqlOpen driverName dataSourceName true ::
        (runPrepared d (queryText lowerRune (args.getD 1 "")) ++ [Event.dbClose])

/-- The bytes a trace leaves on standard output. -/
def stdout : List Event → String
  | [] => ""
  | Event.println s :: rest => s ++ "\n" ++ stdout rest
  | _ :: rest => stdout rest

/-- The arguments of the `fmt.Println` calls of a trace, in order. -/
def printed : List Event → List String
  | [] => []
  | Event.println s :: rest => s :: printed rest
  | _ :: rest => printed rest

/-- Whether an event is a call into `database/sql` (anything but printing). -/
def Event.isDatabaseCall : Event → Bool
  | Event.println _ => false
  | _ => true

/-- The texts handed to `db.Prepare` along a trace, in order. -/
def preparedTexts : List Event → List String
  | [] => []
  | Event.prepare text _ :: rest => text :: preparedTexts rest
  | _ :: rest => preparedTexts rest

/-- The bound-parameter lists handed to `st.Query` along a trace, in order. -/
def boundArgs : List Event → List (List String)
  | [] => []
  | Event.query args _ :: rest => args :: boundArgs rest
  | _ :: rest => boundArgs rest

/-- A successful `sql.Open`: the run now holds a connection. -/
def Event.acquiresConn : Event → Bool
  | Event.sqlOpen _ _ true => true
  | _ => false

/-- A successful `st.Query`: the run now holds a cursor. -/
def Event.acquiresCursor : Event → Bool
  | Event.query _ true => true
  | _ => false

/-! ## Resource discipline -/

/-- Which of the two closable handles a run currently holds: the connection
pool `db` and the result cursor `r`. -/
structure Held where
  conn : Bool
  cursor : Bool
  deriving DecidableEq, Repr

/-- Effect of one event on the held handles; `none` flags a violation: a
handle acquired while already held, a handle closed while not held, or the
connection closed while the cursor is still held. -/
def Held.step (h : Held) : Event → Option Held
  | Event.sqlOpen _ _ ok => if h.conn then none else some ⟨ok, h.cursor⟩
  | Event.query _ ok => if h.cursor then none else some ⟨h.conn, ok⟩
  | Event.rowsClose => if h.cursor then some ⟨h.conn, false⟩ else none
  | Event.dbClose => if h.conn && !h.cursor then some ⟨false, h.cursor⟩ else none
  | _ => some h

/-- Run `Held.step` along a trace, stopping at the first violation. -/
def Held.run : Held → List Event → Option Held
  | h, [] => some h
  | h, e :: rest =>
    match h.step e with
    | none => none
    | some h2 => Held.run h2 rest

/-! ## The database side of the query

`main` only produces the query text; what the text means is decided by the
database.  The definitions below describe the reading a PostgreSQL server
(standard-conforming strings, default LIKE escape) gives to a text of the shape
`select path from files where lower(path) like '...'`.  They are used by the
statements that speak about which paths match. -/

/-- The single quote, delimiter of SQL string literals. -/
def quote : Char := Char.ofNat 39

/-- The backslash, default escape character of LIKE patterns. -/
def backslash : Char := Char.ofNat 92

/-- Remove `lead` from the front of `s`, if `s` starts with it. -/
def dropLeading : List Char → List Char → Option (List Char)
  | [], s => some s
  | _ :: _, [] => none
  | c :: lead, x :: s => if c = x then dropLeading lead s else none

/-- Read the body of an SQL string literal, the opening quote already consumed:
two consecutive quotes stand for one quote character, a single quote ends the
literal.  Returns the characters the literal denotes and the text that follows
the closing quote; `none` when the literal is never closed. -/
def literalBody : List Char → Option (List Char × List Char)
  | [] => none
  | c :: s =>
    if c = quote then
      match s with
      | [] => some ([], [])
      | c2 :: s2 =>
        if c2 = quote then (literalBody s2).map (fun r => (quote :: r.1, r.2))
        else some ([], c2 :: s2)
    else (literalBody s).map (fun r => (c :: r.1, r.2))

/-- The query text up to the LIKE pattern literal. -/
def selectHead : String := "select path from files where lower(path) like "

/-- Read a query text as `select path from files where lower(path) like`
followed by a string literal: the pattern the literal denotes, and whatever
text follows the literal. -/
def likeLiteral (text : String) : Option (List Char × List Char) :=
  match dropLeading selectHead.data text.data with
  | some (c :: s) => if c = quote then literalBody s else none
  | _ => none

/-- Whether `f` accepts `s` or one of its proper suffixes. -/
def anyTail (f : List Char → Bool) : List Char → Bool
  | [] => f []
  | c :: s => f (c :: s) || anyTail f s

/-- SQL `s LIKE pattern`: `%` stands for any run of characters, `_` for any one
character, a backslash makes the next pattern character stand for itself, any
other character stands for itself.  A pattern ending in a lone backslash
matches nothing here (PostgreSQL reports an error when matching reaches it). -/
def likeMatch : List Char → List Char → Bool
  | [], s => s.isEmpty
  | c :: p, s =>
    if c = '%' then anyTail (likeMatch p) s
    else if c = '_' then
      match s with
      | [] => false
      | _ :: s2 => likeMatch p s2
    else if c = backslash then
      match p with
      | [] => false
      | e :: p2 =>
        match s with
        | [] => false
        | x :: s2 => x == e && likeMatch p2 s2
    else
      match s with
      | [] => false
      | x :: s2 => x == c && likeMatch p s2

/-- The rows of `table` (the `path` column of `files`) selected by the LIKE
pattern `pat` applied to the lower-cased path, `sqlLower` being SQL `lower`. -/
def selectLike (sqlLower : String → String) (table : List String) (pat : List Char) :
    List String :=
  table.filter (fun p => likeMatch pat (sqlLower p).data)

/-- A cursor `r` is a faithful answer to the query `text` over `table`: the
text reads as the expected select with nothing after the pattern literal, the
cursor ends regularly, every scan succeeds, and the rows are the selected
paths in some order. -/
def AnswersLike (sqlLower : String → String) (table : List String) (text : String)
    (r : Rows) : Prop :=
  ∃ (pat : List Char) (ps : List String), likeLiteral text = some (pat, []) ∧ r.err = none ∧
    r.rows = ps.map some ∧ ps.Perm (selectLike sqlLower table pat)

/-- A database that holds `table` and understands exactly the query shape of
`likeLiteral` with nothing after the literal; every other text is rejected at
prepare time.  Rows come back in table order. -/
def likeServer (sqlLower : String → String) (table : List String) : Driver where
  openErr := fun _ _ => none
  prepareErr := fun text =>
    match likeLiteral text with
    | some (_, []) => none
    | _ => some "pq: syntax error"
  query := fun text args =>
    match likeLiteral text, args with
    | some (pat, []), [] => Except.ok ⟨(selectLike sqlLower table pat).map some, none⟩
    | _, _ => Except.error "pq: syntax error"

/-- SQL `lower` restricted to the ASCII letters. -/
def asciiLower (s : String) : String := ToLower Char.toLower s

/-! ## Concrete worlds used to exercise the statements -/

/-- A database that cannot be opened. -/
def unreachable : Driver where
  openErr := fun _ _ => some "dial tcp: connection refused"
  prepareErr := fun _ => none
  query := fun _ _ => Except.ok ⟨[], none⟩

/-- A database that rejects every statement at prepare time. -/
def rejecting : Driver where
  openErr := fun _ _ => none
  prepareErr := fun _ => some "pq: relation does not exist"
  query := fun _ _ => Except.ok ⟨[], none⟩

/-- A database that fails every statement at execution time. -/
def failing : Driver where
  openErr := fun _ _ => none
  prepareErr := fun _ => none
  query := fun _ _ => Except.error "pq: canceling statement"

/-- A database that answers every query with the given cursor. -/
def answering (r : Rows) : Driver where
  openErr := fun _ _ => none
  prepareErr := fun _ => none
  query := fun _ _ => Except.ok r

/-! ## Shape of the traces -/

theorem main_wrong_count (lowerRune : Char → Char) (d : Driver) (args : List String)
    (h : args.length ≠ 2) : main lowerRune d args = [Event.println usageMessage] := by
  simp [main, h]

theorem main_open_failed (lowerRune : Char → Char) (d : Driver) (prog f msg : String)
    (hopen : d.openErr driverName dataSourceName = some msg) :
    main lowerRune d [prog, f] =
      [Event.sqlOpen driverName dataSourceName false, Event.println msg] := by
  simp [main, hopen]

theorem main_prepare_failed (lowerRune : Char → Char) (d : Driver) (prog f msg : String)
    (hopen : d.openErr driverName dataSourceName = none)
    (hprep : d.prepareErr (queryText lowerRune f) = some msg) :
    main lowerRune d [prog, f] =
      [Event.sqlOpen driverName dataSourceName true,
       Event.prepare (queryText lowerRune f) false, Event.println msg, Event.dbClose] := by
  simp [main, runPrepared, hopen, hprep]

theorem main_query_failed (lowerRune : Char → Char) (d : Driver) (prog f msg : String)
    (hopen : d.openErr driverName dataSourceName = none)
    (hprep : d.prepareErr (queryText lowerRune f) = none)
    (hquery : d.query (queryText lowerRune f) [] = Except.error msg) :
    main lowerRune d [prog, f] =
      [Event.sqlOpen driverName dataSourceName true,
       Event.prepare (queryText lowerRune f) true, Event.query [] false,
       Event.println msg, Event.dbClose] := by
  simp [main, runPrepared, runQuery, hopen, hprep, hquery]

theorem main_rows (lowerRune : Char → Char) (d : Driver) (prog f : String) (r : Rows)
    (hopen : d.openErr driverName dataSourceName = none)
    (hprep : d.prepareErr (queryText lowerRune f) = none)
    (hquery : d.query (queryText lowerRune f) [] = Except.ok r) :
    main lowerRune d [prog, f] =
      Event.sqlOpen driverName dataSourceName true ::
        Event.prepare (queryText lowerRune f) true :: Event.query [] true ::
          (rowLoop r.rows ++ [Event.rowsClose, Event.dbClose]) := by
  simp [main, runPrepared, runQuery, hopen, hprep, hquery]

theorem printed_rowLoop_append (rows : List (Option String)) (tail : List Event) :
    printed (rowLoop rows ++ tail) = rows.map (fun o => o.getD "") ++ printed tail := by
  induction rows with
  | nil => simp [rowLoop, printed]
  | cons o rest ih => cases o <;> simp [rowLoop, printed, scanInto, ih]

theorem stdout_rowLoop_append (rows : List (Option String)) (tail : List Event) :
    stdout (rowLoop rows ++ tail) =
      List.foldr (fun p acc => p ++ "\n" ++ acc) (stdout tail)
        (rows.map (fun o => o.getD "")) := by
  induction rows with
  | nil => simp [rowLoop, stdout]
  | cons o rest ih => cases o <;> simp [rowLoop, stdout, scanInto, ih]

theorem printed_main_rows (lowerRune : Char → Char) (d : Driver) (prog f : String) (r : Rows)
    (hopen : d.openErr driverName dataSourceName = none)
    (hprep : d.prepareErr (queryText lowerRune f) = none)
    (hquery : d.query (queryText lowerRune f) [] = Except.ok r) :
    printed (main lowerRune d [prog, f]) = r.rows.map (fun o => o.getD "") := by
  rw [main_rows lowerRune d prog f r hopen hprep hquery]
  simp [printed, printed_rowLoop_append]

theorem stdout_main_rows (lowerRune : Char → Char) (d : Driver) (prog f : String) (r : Rows)
    (hopen : d.openErr driverName dataSourceName = none)
    (hprep : d.prepareErr (queryText lowerRune f) = none)
    (hquery : d.query (queryText lowerRune f) [] = Except.ok r) :
    stdout (main lowerRune d [prog, f]) =
      List.foldr (fun p acc => p ++ "\n" ++ acc) "" (r.rows.map (fun o => o.getD "")) := by
  rw [main_rows lowerRune d prog f r hopen hprep hquery]
  simp [stdout, stdout_rowLoop_append]

theorem preparedTexts_rowLoop_append (rows : List (Option String)) (tail : List Event) :
    preparedTexts (rowLoop rows ++ tail) = preparedTexts tail := by
  induction rows with
  | nil => simp [rowLoop, preparedTexts]
  | cons o rest ih => simp [rowLoop, preparedTexts, ih]

theorem boundArgs_rowLoop_append (rows : List (Option String)) (tail : List Event) :
    boundArgs (rowLoop rows ++ tail) = boundArgs tail := by
  induction rows with
  | nil => simp [rowLoop, boundArgs]
  | cons o rest ih => simp [rowLoop, boundArgs, ih]

theorem held_rowLoop_append (rows : List (Option String)) (tail : List Event) (h : Held) :
    Held.run h (rowLoop rows ++ tail) = Held.run h tail := by
  induction rows with
  | nil => simp [rowLoop, Held.run, Held.step]
  | cons o rest ih => simp [rowLoop, Held.run, Held.step, ih]

theorem countP_rowLoop (p : Event → Bool) (rows : List (Option String))
    (hnext : ∀ b, p (Event.next b) = false) (hscan : ∀ b, p (Event.scan b) = false)
    (hprint : ∀ s, p (Event.println s) = false) :
    List.countP p (rowLoop rows) = 0 := by
  induction rows with
  | nil => simp [rowLoop, hnext]
  | cons o rest ih => simp [rowLoop, List.countP_cons, hnext, hscan, hprint, ih]

theorem count_next_rowLoop_append (rows : List (Option String)) (tail : List Event) :
    List.count (Event.next true) (rowLoop rows ++ tail) =
      rows.length + List.count (Event.next true) tail := by
  induction rows with
  | nil => simp [rowLoop, List.count_cons]
  | cons o rest ih =>
    simp [rowLoop, List.count_cons, ih]
    omega

/-! ## Reading the query text -/

theorem dropLeading_append (lead s : List Char) : dropLeading lead (lead ++ s) = some s := by
  induction lead with
  | nil => cases s <;> rfl
  | cons c lead ih => simp [dropLeading, ih]

theorem likeMatch_cons (c : Char) (p s : List Char) :
    likeMatch (c :: p) s =
      if c = '%' then anyTail (likeMatch p) s
      else if c = '_' then
        match s with
        | [] => false
        | _ :: s2 => likeMatch p s2
      else if c = backslash then
        match p with
        | [] => false
        | e :: p2 =>
          match s with
          | [] => false
          | x :: s2 => x == e && likeMatch p2 s2
      else
        match s with
        | [] => false
        | x :: s2 => x == c && likeMatch p s2 := by
  cases p <;> cases s <;> rfl

theorem literalBody_cons (c : Char) (s : List Char) :
    literalBody (c :: s) =
      if c = quote then
        match s with
        | [] => some ([], [])
        | c2 :: s2 =>
          if c2 = quote then (literalBody s2).map (fun r => (quote :: r.1, r.2))
          else some ([], c2 :: s2)
      else (literalBody s).map (fun r => (c :: r.1, r.2)) := by
  cases s <;> rfl

theorem literalBody_cut (pre post : List Char) (hpre : quote ∉ pre)
    (hpost : post.head? ≠ some quote) :
    literalBody (pre ++ quote :: post) = some (pre, post) := by
  induction pre with
  | nil =>
    cases post with
    | nil => simp [literalBody]
    | cons c post =>
      have hc : c ≠ quote := by simpa using hpost
      simp [literalBody, hc]
  | cons c pre ih =>
    have hc : c ≠ quote := fun h => hpre (h ▸ List.mem_cons_self _ _)
    have hq : quote ∉ pre := fun h => hpre (List.mem_cons_of_mem _ h)
    rw [List.cons_append, literalBody_cons, if_neg hc, ih hq]
    rfl

theorem queryText_data (lowerRune : Char → Char) (f : String) :
    (queryText lowerRune f).data =
      selectHead.data ++ quote :: ('%' :: (ToLower lowerRune f).data ++ ['%', quote]) := by
  have h1 : "select path from files where lower(path) like '%".data =
      selectHead.data ++ [quote, '%'] := by decide
  have h2 : "%'".data = ['%', quote] := by decide
  rw [queryText, String.data_append, String.data_append, h1, h2]
  simp

theorem likeLiteral_queryText (lowerRune : Char → Char) (f : String) :
    likeLiteral (queryText lowerRune f) =
      literalBody ('%' :: (ToLower lowerRune f).data ++ ['%', quote]) := by
  rw [likeLiteral, queryText_data, dropLeading_append]
  simp

theorem likeLiteral_cut (lowerRune : Char → Char) (f : String) (pre post : List Char)
    (hsplit : (ToLower lowerRune f).data = pre ++ quote :: post) (hpre : quote ∉ pre)
    (hpost : post.head? ≠ some quote) :
    likeLiteral (queryText lowerRune f) = some ('%' :: pre, post ++ ['%', quote]) := by
  have hq : ('%' : Char) ≠ quote := by decide
  have hpre2 : quote ∉ '%' :: pre := by
    intro h
    rcases List.mem_cons.mp h with h | h
    · exact hq h.symm
    · exact hpre h
  have hpost2 : (post ++ ['%', quote]).head? ≠ some quote := by
    cases post with
    | nil => simpa using hq
    | cons c post => simpa using hpost
  have := literalBody_cut ('%' :: pre) (post ++ ['%', quote]) hpre2 hpost2
  rw [likeLiteral_queryText, hsplit]
  simpa using this

theorem likeLiteral_plain (lowerRune : Char → Char) (f : String)
    (hq : quote ∉ (ToLower lowerRune f).data) :
    likeLiteral (queryText lowerRune f) =
      some ('%' :: (ToLower lowerRune f).data ++ ['%'], []) := by
  have hp : ('%' : Char) ≠ quote := by decide
  have hpre : quote ∉ '%' :: (ToLower lowerRune f).data ++ ['%'] := by
    intro h
    simp only [List.cons_append, List.mem_cons, List.mem_append, List.mem_singleton,
      List.not_mem_nil, or_false] at h
    rcases h with h | h | h
    · exact hp h.symm
    · exact hq h
    · exact hp h.symm
  have := literalBody_cut ('%' :: (ToLower lowerRune f).data ++ ['%']) [] hpre (by simp)
  rw [likeLiteral_queryText]
  simpa using this

/-! ## LIKE against a pattern without special characters -/

theorem anyTail_eq_true (f : List Char → Bool) (s : List Char) :
    anyTail f s = true ↔ ∃ t, t <:+ s ∧ f t = true := by
  induction s with
  | nil => simp [anyTail]
  | cons c s ih =>
    simp only [anyTail, Bool.or_eq_true, ih, List.suffix_cons_iff]
    constructor
    · rintro (h | ⟨t, ht, hf⟩)
      · exact ⟨c :: s, Or.inl rfl, h⟩
      · exact ⟨t, Or.inr ht, hf⟩
    · rintro ⟨t, (rfl | ht), hf⟩
      · exact Or.inl hf
      · exact Or.inr ⟨t, ht, hf⟩

theorem likeMatch_plain_append (p q : List Char)
    (hp : ∀ c ∈ p, c ≠ '%' ∧ c ≠ '_' ∧ c ≠ backslash) (s : List Char) :
    likeMatch (p ++ q) s = true ↔ ∃ t, s = p ++ t ∧ likeMatch q t = true := by
  induction p generalizing s with
  | nil => simp
  | cons c p ih =>
    obtain ⟨h1, h2, h3⟩ := hp c (List.mem_cons_self _ _)
    have ih2 := fun s => ih (fun x hx => hp x (List.mem_cons_of_mem _ hx)) s
    rw [List.cons_append, likeMatch_cons, if_neg h1, if_neg h2, if_neg h3]
    cases s with
    | nil => simp
    | cons x s =>
      simp only [Bool.and_eq_true, beq_iff_eq, ih2, List.cons_append, List.cons.injEq]
      constructor
      · rintro ⟨rfl, t, rfl, ht⟩
        exact ⟨t, ⟨rfl, rfl⟩, ht⟩
      · rintro ⟨t, ⟨rfl, rfl⟩, ht⟩
        exact ⟨rfl, t, rfl, ht⟩

theorem likeMatch_contains (p s : List Char)
    (hp : ∀ c ∈ p, c ≠ '%' ∧ c ≠ '_' ∧ c ≠ backslash) :
    likeMatch ('%' :: p ++ ['%']) s = true ↔ p <:+: s := by
  have hall : ∀ u : List Char, likeMatch ['%'] u = true := by
    intro u
    rw [likeMatch_cons, if_pos rfl, anyTail_eq_true]
    exact ⟨[], List.nil_suffix, rfl⟩
  rw [List.infix_iff_prefix_suffix, List.cons_append, likeMatch_cons, if_pos rfl,
    anyTail_eq_true]
  constructor
  · rintro ⟨t, hts, hm⟩
    obtain ⟨u, rfl, _⟩ := (likeMatch_plain_append p ['%'] hp t).mp hm
    exact ⟨p ++ u, List.prefix_append _ _, hts⟩
  · rintro ⟨t, ⟨u, rfl⟩, hts⟩
    exact ⟨p ++ u, hts, (likeMatch_plain_append p ['%'] hp _).mpr ⟨u, rfl, hall u⟩⟩

/-! ## Argument count -/

/-- C1: whenever the argument vector (program name included) does not have
length 2, the whole run of main is the single call printing the usage line:
standard output is that line and a newline, and the trace contains no call
into the database package (no open, prepare, query, row access or close). -/
theorem usage_on_wrong_argument_count (lowerRune : Char → Char) (d : Driver)
    (args : List String) (h : args.length ≠ 2) :
    main lowerRune d args = [Event.println "ERROR: must provide search string on cmd line"] ∧
    stdout (main lowerRune d args) = "ERROR: must provide search string on cmd line\n" ∧
    ∀ e ∈ main lowerRune d args, e.isDatabaseCall = false := by
  rw [main_wrong_count lowerRune d args h]
  refine ⟨rfl, by decide, ?_⟩
  intro e he
  rw [List.mem_singleton] at he
  subst he
  rfl

/-- Witness of C1 at no user argument, at two user arguments and at the empty
argument vector, each against a database that would answer. -/
theorem usage_on_wrong_argument_count_witness :
    (["fslocate"].length ≠ 2 ∧
      stdout (main Char.toLower (answering ⟨[some "/a"], none⟩) ["fslocate"]) =
        "ERROR: must provide search string on cmd line\n") ∧
    (["fslocate", "a", "b"].length ≠ 2 ∧
      stdout (main Char.toLower (answering ⟨[some "/a"], none⟩) ["fslocate", "a", "b"]) =
        "ERROR: must provide search string on cmd line\n") ∧
    (([] : List String).length ≠ 2 ∧
      main Char.toLower (answering ⟨[some "/a"], none⟩) [] =
        [Event.println "ERROR: must provide search string on cmd line"]) :=
  ⟨⟨by decide, (usage_on_wrong_argument_count Char.toLower _ ["fslocate"] (by decide)).2.1⟩,
   ⟨by decide,
    (usage_on_wrong_argument_count Char.toLower _ ["fslocate", "a", "b"] (by decide)).2.1⟩,
   ⟨by decide, (usage_on_wrong_argument_count Char.toLower _ [] (by decide)).1⟩⟩

/-! ## The query text -/

/-- C4: with exactly one search fragment f, the texts main hands to Prepare
are: nothing when the open failed, and otherwise the one string
`select path from files where lower(path) like '%` ++ lower-cased f ++ `%'`;
every Query call carries the empty list of bound parameters; and two runs whose
fragments have the same lower-cased form prepare the same texts, whatever the
program name. -/
theorem prepared_text_is_concatenation (lowerRune : Char → Char) (d : Driver)
    (prog f : String) :
    preparedTexts (main lowerRune d [prog, f]) =
      (if (d.openErr driverName dataSourceName).isNone then
        ["select path from files where lower(path) like '%" ++ ToLower lowerRune f ++ "%'"]
       else []) ∧
    (∀ a ∈ boundArgs (main lowerRune d [prog, f]), a = []) ∧
    (∀ prog2 f2 : String, ToLower lowerRune f2 = ToLower lowerRune f →
      preparedTexts (main lowerRune d [prog2, f2]) =
        preparedTexts (main lowerRune d [prog, f])) := by
  have shape : ∀ (pr g : String),
      preparedTexts (main lowerRune d [pr, g]) =
        (if (d.openErr driverName dataSourceName).isNone then [queryText lowerRune g] else []) ∧
      (∀ a ∈ boundArgs (main lowerRune d [pr, g]), a = []) := by
    intro pr g
    cases hopen : d.openErr driverName dataSourceName with
    | some msg =>
      rw [main_open_failed lowerRune d pr g msg hopen]
      simp [preparedTexts, boundArgs]
    | none =>
      cases hprep : d.prepareErr (queryText lowerRune g) with
      | some msg =>
        rw [main_prepare_failed lowerRune d pr g msg hopen hprep]
        simp [preparedTexts, boundArgs]
      | none =>
        cases hquery : d.query (queryText lowerRune g) [] with
        | error msg =>
          rw [main_query_failed lowerRune d pr g msg hopen hprep hquery]
          simp [preparedTexts, boundArgs]
        | ok r =>
          rw [main_rows lowerRune d pr g r hopen hprep hquery]
          simp [preparedTexts, boundArgs, preparedTexts_rowLoop_append,
            boundArgs_rowLoop_append]
  refine ⟨(shape prog f).1, (shape prog f).2, ?_⟩
  intro prog2 f2 hlow
  rw [(shape prog2 f2).1, (shape prog f).1]
  simp [queryText, hlow]

/-! ## Printing the rows -/

/-- C5: when open, prepare and query succeed and the cursor yields the rows
p1, ..., pn with every scan succeeding, the Println calls of main are exactly
p1, ..., pn in that order, and standard output is p1 newline ... pn newline
with nothing before, between or after; for the empty result set standard output
is empty and nothing is printed. -/
theorem rows_printed_in_order (lowerRune : Char → Char) (d : Driver) (prog f : String)
    (r : Rows) (ps : List String)
    (hopen : d.openErr driverName dataSourceName = none)
    (hprep : d.prepareErr (queryText lowerRune f) = none)
    (hquery : d.query (queryText lowerRune f) [] = Except.ok r)
    (hscan : r.rows = ps.map some) :
    printed (main lowerRune d [prog, f]) = ps ∧
    stdout (main lowerRune d [prog, f]) = List.foldr (fun p acc => p ++ "\n" ++ acc) "" ps ∧
    (ps = [] → stdout (main lowerRune d [prog, f]) = "" ∧
      printed (main lowerRune d [prog, f]) = []) := by
  have hmap : r.rows.map (fun o => o.getD "") = ps := by
    rw [hscan, List.map_map]
    exact (List.map_congr_left (fun _ _ => rfl)).trans (List.map_id ps)
  have h1 := printed_main_rows lowerRune d prog f r hopen hprep hquery
  have h2 := stdout_main_rows lowerRune d prog f r hopen hprep hquery
  rw [hmap] at h1 h2
  refine ⟨h1, h2, ?_⟩
  intro hnil
  rw [h1, h2, hnil]
  exact ⟨rfl, rfl⟩

/-- Witness of C5: a cursor yielding `/b`, `/a`, `/b` (unsorted, with a
duplicate) prints exactly these three lines in this order. -/
theorem rows_printed_in_order_witness :
    stdout (main Char.toLower (answering ⟨[some "/b", some "/a", some "/b"], none⟩)
      ["fslocate", "x"]) = "/b\n/a\n/b\n" :=
  (rows_printed_in_order Char.toLower (answering ⟨[some "/b", some "/a", some "/b"], none⟩)
    "fslocate" "x" ⟨[some "/b", some "/a", some "/b"], none⟩ ["/b", "/a", "/b"]
    rfl rfl rfl rfl).2.1

/-! ## Failing database steps -/

/-- C6: with exactly one argument, (a) a failed open makes the run consist of
the open call and one Println of its error; (b) a failed prepare makes the run
consist of open, prepare, one Println of the prepare error and the deferred
close of the connection; (c) a failed query makes the run consist of open,
prepare, query, one Println of the query error and the deferred close.  In
each case standard output is that message and a newline, and no later database
step and no row access occurs. -/
theorem first_failure_is_printed (lowerRune : Char → Char) (d : Driver)
    (prog f msg : String) :
    (d.openErr driverName dataSourceName = some msg →
      main lowerRune d [prog, f] =
        [Event.sqlOpen driverName dataSourceName false, Event.println msg] ∧
      stdout (main lowerRune d [prog, f]) = msg ++ "\n") ∧
    (d.openErr driverName dataSourceName = none →
      d.prepareErr (queryText lowerRune f) = some msg →
      main lowerRune d [prog, f] =
        [Event.sqlOpen driverName dataSourceName true,
         Event.prepare (queryText lowerRune f) false, Event.println msg, Event.dbClose] ∧
      stdout (main lowerRune d [prog, f]) = msg ++ "\n") ∧
    (d.openErr driverName dataSourceName = none →
      d.prepareErr (queryText lowerRune f) = none →
      d.query (queryText lowerRune f) [] = Except.error msg →
      main lowerRune d [prog, f] =
        [Event.sqlOpen driverName dataSourceName true,
         Event.prepare (queryText lowerRune f) true, Event.query [] false,
         Event.println msg, Event.dbClose] ∧
      stdout (main lowerRune d [prog, f]) = msg ++ "\n") := by
  refine ⟨?_, ?_, ?_⟩
  · intro hopen
    rw [main_open_failed lowerRune d prog f msg hopen]
    exact ⟨rfl, by simp [stdout]⟩
  · intro hopen hprep
    rw [main_prepare_failed lowerRune d prog f msg hopen hprep]
    exact ⟨rfl, by simp [stdout]⟩
  · intro hopen hprep hquery
    rw [main_query_failed lowerRune d prog f msg hopen hprep hquery]
    exact ⟨rfl, by simp [stdout]⟩

/-- Witness of C6: one database for each of the three failing steps. -/
theorem first_failure_is_printed_witness :
    stdout (main Char.toLower unreachable ["fslocate", "a"]) =
      "dial tcp: connection refused" ++ "\n" ∧
    stdout (main Char.toLower rejecting ["fslocate", "a"]) =
      "pq: relation does not exist" ++ "\n" ∧
    stdout (main Char.toLower failing ["fslocate", "a"]) =
      "pq: canceling statement" ++ "\n" :=
  ⟨((first_failure_is_printed Char.toLower unreachable "fslocate" "a"
      "dial tcp: connection refused").1 rfl).2,
   ((first_failure_is_printed Char.toLower rejecting "fslocate" "a"
      "pq: relation does not exist").2.1 rfl rfl).2,
   ((first_failure_is_printed Char.toLower failing "fslocate" "a"
      "pq: canceling statement").2.2 rfl rfl rfl).2⟩

/-- C9: after a successful query, whatever the scan outcomes of the rows, main
runs one loop iteration per row and prints one line per row: the scanned value
where the scan succeeded and the empty string where it failed.  No error
message is printed for a failed scan and the rows after it are still printed,
so the number of Println calls equals the number of rows. -/
theorem scan_failure_prints_empty_line (lowerRune : Char → Char) (d : Driver)
    (prog f : String) (r : Rows)
    (hopen : d.openErr driverName dataSourceName = none)
    (hprep : d.prepareErr (queryText lowerRune f) = none)
    (hquery : d.query (queryText lowerRune f) [] = Except.ok r) :
    printed (main lowerRune d [prog, f]) = r.rows.map (fun o => o.getD "") ∧
    (printed (main lowerRune d [prog, f])).length = r.rows.length ∧
    List.count (Event.next true) (main lowerRune d [prog, f]) = r.rows.length ∧
    stdout (main lowerRune d [prog, f]) =
      List.foldr (fun p acc => p ++ "\n" ++ acc) "" (r.rows.map (fun o => o.getD "")) := by
  have h1 := printed_main_rows lowerRune d prog f r hopen hprep hquery
  refine ⟨h1, by rw [h1, List.length_map], ?_,
    stdout_main_rows lowerRune d prog f r hopen hprep hquery⟩
  rw [main_rows lowerRune d prog f r hopen hprep hquery, List.count_cons, List.count_cons,
    List.count_cons, count_next_rowLoop_append]
  simp [List.count_cons]

/-- Witness of C9: the middle one of three rows fails to scan; three lines are
printed, the middle one empty, and the third row still appears. -/
theorem scan_failure_prints_empty_line_witness :
    stdout (main Char.toLower (answering ⟨[some "/a", none, some "/b"], none⟩)
      ["fslocate", "x"]) = "/a\n\n/b\n" ∧
    (printed (main Char.toLower (answering ⟨[some "/a", none, some "/b"], none⟩)
      ["fslocate", "x"])).length = 3 :=
  ⟨(scan_failure_prints_empty_line Char.toLower
      (answering ⟨[some "/a", none, some "/b"], none⟩) "fslocate" "x"
      ⟨[some "/a", none, some "/b"], none⟩ rfl rfl rfl).2.2.2,
   (scan_failure_prints_empty_line Char.toLower
      (answering ⟨[some "/a", none, some "/b"], none⟩) "fslocate" "x"
      ⟨[some "/a", none, some "/b"], none⟩ rfl rfl rfl).2.1⟩

/-- C10: take two databases that both accept the open, the prepare and the
query, the first answering with a cursor that yields some rows and then stops
on an error, the second with a cursor that yields the same rows and then ends
regularly.  The two runs of main are the same trace, so the same standard
output: one line per row read, and the cursor error is never printed. -/
theorem cursor_error_is_not_reported (lowerRune : Char → Char) (d1 d2 : Driver)
    (prog f msg : String) (rows : List (Option String))
    (hopen1 : d1.openErr driverName dataSourceName = none)
    (hprep1 : d1.prepareErr (queryText lowerRune f) = none)
    (hquery1 : d1.query (queryText lowerRune f) [] = Except.ok ⟨rows, some msg⟩)
    (hopen2 : d2.openErr driverName dataSourceName = none)
    (hprep2 : d2.prepareErr (queryText lowerRune f) = none)
    (hquery2 : d2.query (queryText lowerRune f) [] = Except.ok ⟨rows, none⟩) :
    main lowerRune d1 [prog, f] = main lowerRune d2 [prog, f] ∧
    printed (main lowerRune d1 [prog, f]) = rows.map (fun o => o.getD "") ∧
    stdout (main lowerRune d1 [prog, f]) = stdout (main lowerRune d2 [prog, f]) := by
  have e1 := main_rows lowerRune d1 prog f ⟨rows, some msg⟩ hopen1 hprep1 hquery1
  have e2 := main_rows lowerRune d2 prog f ⟨rows, none⟩ hopen2 hprep2 hquery2
  have e : main lowerRune d1 [prog, f] = main lowerRune d2 [prog, f] := by rw [e1, e2]
  exact ⟨e, printed_main_rows lowerRune d1 prog f ⟨rows, some msg⟩ hopen1 hprep1 hquery1,
    by rw [e]⟩

/-- Witness of C10: a cursor that breaks after two rows against a cursor that
holds exactly these two rows. -/
theorem cursor_error_is_not_reported_witness :
    stdout (main Char.toLower
      (answering ⟨[some "/a", some "/b"], some "unexpected EOF"⟩) ["fslocate", "x"]) =
    stdout (main Char.toLower (answering ⟨[some "/a", some "/b"], none⟩) ["fslocate", "x"]) :=
  (cursor_error_is_not_reported Char.toLower
    (answering ⟨[some "/a", some "/b"], some "unexpected EOF"⟩)
    (answering ⟨[some "/a", some "/b"], none⟩) "fslocate" "x" "unexpected EOF"
    [some "/a", some "/b"] rfl rfl rfl rfl rfl rfl).2.2

/-! ## Releasing the handles -/

/-- C7: on every run of main, for every argument vector and every behaviour
of the database, the trace respects the handle discipline and ends holding
nothing: starting with no handle, no handle is acquired twice, the cursor is
closed only while held, the connection is closed only while held and after the
cursor, and at the end neither is held.  Moreover the number of connection
closes equals the number of successful opens and the number of cursor closes
equals the number of successful queries, each at most one. -/
theorem handles_released_on_every_path (lowerRune : Char → Char) (d : Driver)
    (args : List String) :
    Held.run ⟨false, false⟩ (main lowerRune d args) = some ⟨false, false⟩ ∧
    List.count Event.dbClose (main lowerRune d args) =
      List.countP Event.acquiresConn (main lowerRune d args) ∧
    List.count Event.rowsClose (main lowerRune d args) =
      List.countP Event.acquiresCursor (main lowerRune d args) ∧
    List.count Event.dbClose (main lowerRune d args) ≤ 1 ∧
    List.count Event.rowsClose (main lowerRune d args) ≤ 1 := by
  by_cases hlen : args.length ≠ 2
  · rw [main_wrong_count lowerRune d args hlen]
    simp [Held.run, Held.step, Event.acquiresConn, Event.acquiresCursor]
  · have hlen2 : args.length = 2 := not_not.mp hlen
    obtain ⟨prog, f, rfl⟩ : ∃ prog f, args = [prog, f] := by
      match args, hlen2 with
      | [a, b], _ => exact ⟨a, b, rfl⟩
    cases hopen : d.openErr driverName dataSourceName with
    | some msg =>
      rw [main_open_failed lowerRune d prog f msg hopen]
      simp [Held.run, Held.step, Event.acquiresConn, Event.acquiresCursor]
    | none =>
      cases hprep : d.prepareErr (queryText lowerRune f) with
      | some msg =>
        rw [main_prepare_failed lowerRune d prog f msg hopen hprep]
        simp [Held.run, Held.step, Event.acquiresConn, Event.acquiresCursor]
      | none =>
        cases hquery : d.query (queryText lowerRune f) [] with
        | error msg =>
          rw [main_query_failed lowerRune d prog f msg hopen hprep hquery]
          simp [Held.run, Held.step, Event.acquiresConn, Event.acquiresCursor]
        | ok r =>
          rw [main_rows lowerRune d prog f r hopen hprep hquery]
          have c1 := countP_rowLoop (fun e => e == Event.dbClose) r.rows
            (fun _ => rfl) (fun _ => rfl) (fun _ => rfl)
          have c2 := countP_rowLoop (fun e => e == Event.rowsClose) r.rows
            (fun _ => rfl) (fun _ => rfl) (fun _ => rfl)
          have c3 := countP_rowLoop Event.acquiresConn r.rows
            (fun _ => rfl) (fun _ => rfl) (fun _ => rfl)
          have c4 := countP_rowLoop Event.acquiresCursor r.rows
            (fun _ => rfl) (fun _ => rfl) (fun _ => rfl)
          simp only [List.count] at *
          simp [Held.run, Held.step, Event.acquiresConn, Event.acquiresCursor,
            held_rowLoop_append, List.countP_cons, List.countP_append, c1, c2, c3, c4]

/-! ## Letter case of the fragment -/

/-- C3: two fragments with the same lower-cased form give the same run of main
against the same database, whatever the program name: the same query text is
prepared and the same standard output results.  In particular, against a
database holding the path `/Users/Foo/Bar.txt`, the fragments `foo`, `FOO` and
`Foo` each print exactly that path. -/
theorem case_of_fragment_is_irrelevant :
    (∀ (lowerRune : Char → Char) (d : Driver) (prog1 prog2 f1 f2 : String),
      ToLower lowerRune f1 = ToLower lowerRune f2 →
        main lowerRune d [prog1, f1] = main lowerRune d [prog2, f2] ∧
        preparedTexts (main lowerRune d [prog1, f1]) =
          preparedTexts (main lowerRune d [prog2, f2]) ∧
        stdout (main lowerRune d [prog1, f1]) = stdout (main lowerRune d [prog2, f2])) ∧
    stdout (main Char.toLower (likeServer asciiLower ["/Users/Foo/Bar.txt"])
      ["fslocate", "foo"]) = "/Users/Foo/Bar.txt\n" ∧
    stdout (main Char.toLower (likeServer asciiLower ["/Users/Foo/Bar.txt"])
      ["fslocate", "FOO"]) = "/Users/Foo/Bar.txt\n" ∧
    stdout (main Char.toLower (likeServer asciiLower ["/Users/Foo/Bar.txt"])
      ["fslocate", "Foo"]) = "/Users/Foo/Bar.txt\n" := by
  refine ⟨?_, by decide, by decide, by decide⟩
  intro lowerRune d prog1 prog2 f1 f2 hlow
  have e : main lowerRune d [prog1, f1] = main lowerRune d [prog2, f2] := by
    simp [main, queryText, hlow]
  exact ⟨e, by rw [e], by rw [e]⟩

/-- Witness of C3: `Foo` and `FOO` have the same lower-cased form and give the
same run against a database holding two paths. -/
theorem case_of_fragment_is_irrelevant_witness :
    main Char.toLower (likeServer asciiLower ["/Users/Foo/Bar.txt", "/etc/passwd"])
      ["fslocate", "Foo"] =
    main Char.toLower (likeServer asciiLower ["/Users/Foo/Bar.txt", "/etc/passwd"])
      ["fslocate", "FOO"] :=
  (case_of_fragment_is_irrelevant.1 Char.toLower
    (likeServer asciiLower ["/Users/Foo/Bar.txt", "/etc/passwd"])
    "fslocate" "fslocate" "Foo" "FOO" (by decide)).1

/-! ## The fragment inside the query text -/

/-- C8: the lower-cased fragment is spliced into the query text as it is.
Whenever it contains a single quote that is not doubled, say it reads
pre ++ quote ++ post with no quote in pre and post not starting with a quote,
the string literal opened in the query text closes at that quote: the LIKE
pattern is `%` ++ pre, which is not `%` ++ lower-cased fragment ++ `%`, and the
text after the literal, post ++ `%'`, is not empty and is left to be read as
SQL.  Such a fragment exists: `x' or ''='` gives the pattern `%x` followed by
the text ` or ''='%'`. -/
theorem quote_in_fragment_ends_literal :
    (∀ (lowerRune : Char → Char) (f : String) (pre post : List Char),
      (ToLower lowerRune f).data = pre ++ quote :: post → quote ∉ pre →
      post.head? ≠ some quote →
        queryText lowerRune f =
          "select path from files where lower(path) like '%" ++ ToLower lowerRune f ++ "%'" ∧
        likeLiteral (queryText lowerRune f) = some ('%' :: pre, post ++ ['%', quote]) ∧
        '%' :: pre ≠ '%' :: (ToLower lowerRune f).data ++ ['%'] ∧
        post ++ ['%', quote] ≠ []) ∧
    (∃ (f : String) (lit rest : List Char),
      likeLiteral (queryText Char.toLower f) = some (lit, rest) ∧
      lit ≠ '%' :: (ToLower Char.toLower f).data ++ ['%'] ∧ rest ≠ [] ∧
      lit = "%x".data ∧ rest = " or ''='%'".data) := by
  refine ⟨?_, ⟨"x' or ''='", "%x".data, " or ''='%'".data, by decide, by decide, by decide,
    rfl, rfl⟩⟩
  intro lowerRune f pre post hsplit hpre hpost
  refine ⟨rfl, likeLiteral_cut lowerRune f pre post hsplit hpre hpost, ?_, by simp⟩
  intro h
  have hlen := congrArg List.length h
  rw [hsplit] at hlen
  simp at hlen

/-- Witness of C8 at the fragment `x' or ''='`. -/
theorem quote_in_fragment_ends_literal_witness :
    likeLiteral (queryText Char.toLower "x' or ''='") =
      some ("%x".data, " or ''='".data ++ ['%', quote]) :=
  (quote_in_fragment_ends_literal.1 Char.toLower "x' or ''='" "x".data " or ''='".data
    (by decide) (by decide) (by decide)).2.1

/-! ## Which paths are printed -/

/-- C2 as stated fails: against a database holding `/a/bcd` and `/a/xyz` that
evaluates the query with LIKE semantics, the fragment `_` is accepted at open,
prepare and query, and both paths are printed although neither contains an
underscore. -/
theorem underscore_fragment_prints_every_path :
    main Char.toLower (likeServer asciiLower ["/a/bcd", "/a/xyz"]) ["fslocate", "_"] =
      [Event.sqlOpen driverName dataSourceName true,
       Event.prepare "select path from files where lower(path) like '%_%'" true,
       Event.query [] true,
       Event.next true, Event.scan true, Event.println "/a/bcd",
       Event.next true, Event.scan true, Event.println "/a/xyz",
       Event.next false, Event.rowsClose, Event.dbClose] ∧
    AnswersLike asciiLower ["/a/bcd", "/a/xyz"] (queryText Char.toLower "_")
      ⟨[some "/a/bcd", some "/a/xyz"], none⟩ ∧
    ¬ (∀ p : String,
        p ∈ printed (main Char.toLower (likeServer asciiLower ["/a/bcd", "/a/xyz"])
          ["fslocate", "_"]) ↔
        p ∈ ["/a/bcd", "/a/xyz"] ∧
          (ToLower Char.toLower "_").data <:+: (asciiLower p).data) := by
  refine ⟨by decide, ⟨"%_%".data, ["/a/bcd", "/a/xyz"], by decide, rfl, rfl, ?_⟩, ?_⟩
  · have e : selectLike asciiLower ["/a/bcd", "/a/xyz"] "%_%".data = ["/a/bcd", "/a/xyz"] := by
      decide
    rw [e]
  · intro h
    have hp : "/a/bcd" ∈ printed (main Char.toLower
        (likeServer asciiLower ["/a/bcd", "/a/xyz"]) ["fslocate", "_"]) := by decide
    have hno : ¬ ((ToLower Char.toLower "_").data <:+: (asciiLower "/a/bcd").data) := by decide
    exact hno ((h "/a/bcd").mp hp).2

/-- C2 amended: let the lower-cased fragment contain no `%`, no `_`, no
backslash and no single quote.  When open, prepare and query succeed and the
cursor is a faithful answer of a database that holds `table` and evaluates the
query text with LIKE semantics, a path is printed if and only if it is in the
table and its lower-cased form contains the lower-cased fragment as a
contiguous substring. -/
theorem plain_fragment_prints_containing_paths (lowerRune : Char → Char)
    (sqlLower : String → String) (table : List String) (d : Driver) (prog f : String)
    (r : Rows)
    (hplain : ∀ c ∈ (ToLower lowerRune f).data,
      c ≠ '%' ∧ c ≠ '_' ∧ c ≠ backslash ∧ c ≠ quote)
    (hopen : d.openErr driverName dataSourceName = none)
    (hprep : d.prepareErr (queryText lowerRune f) = none)
    (hquery : d.query (queryText lowerRune f) [] = Except.ok r)
    (hanswer : AnswersLike sqlLower table (queryText lowerRune f) r) :
    ∀ p : String, p ∈ printed (main lowerRune d [prog, f]) ↔
      p ∈ table ∧ (ToLower lowerRune f).data <:+: (sqlLower p).data := by
  intro p
  obtain ⟨pat, ps, hlit, _, hrows, hperm⟩ := hanswer
  have hq : quote ∉ (ToLower lowerRune f).data := fun h => (hplain _ h).2.2.2 rfl
  rw [likeLiteral_plain lowerRune f hq] at hlit
  have hpat : pat = '%' :: (ToLower lowerRune f).data ++ ['%'] := by
    have := Option.some.inj hlit
    exact (congrArg Prod.fst this).symm
  have hprinted : printed (main lowerRune d [prog, f]) = ps := by
    rw [printed_main_rows lowerRune d prog f r hopen hprep hquery, hrows, List.map_map]
    exact (List.map_congr_left (fun _ _ => rfl)).trans (List.map_id ps)
  rw [hprinted, hperm.mem_iff, selectLike, List.mem_filter, hpat,
    likeMatch_contains _ _ (fun c hc => ⟨(hplain c hc).1, (hplain c hc).2.1, (hplain c hc).2.2.1⟩)]

/-- Witness of amended C2 on the paths `/a/bcd` and `/a/xyz`: the fragment
`bcd` prints only `/a/bcd`. -/
theorem plain_fragment_prints_containing_paths_witness :
    printed (main Char.toLower (likeServer asciiLower ["/a/bcd", "/a/xyz"])
      ["fslocate", "bcd"]) = ["/a/bcd"] ∧
    printed (main Char.toLower (likeServer asciiLower ["/a/bcd", "/a/xyz"])
      ["fslocate", "a"]) = ["/a/bcd", "/a/xyz"] ∧
    ∀ p : String,
      p ∈ printed (main Char.toLower (likeServer asciiLower ["/a/bcd", "/a/xyz"])
        ["fslocate", "bcd"]) ↔
      p ∈ ["/a/bcd", "/a/xyz"] ∧ (ToLower Char.toLower "bcd").data <:+: (asciiLower p).data :=
  ⟨by decide, by decide,
   plain_fragment_prints_containing_paths Char.toLower asciiLower ["/a/bcd", "/a/xyz"]
    (likeServer asciiLower ["/a/bcd", "/a/xyz"]) "fslocate" "bcd" ⟨[some "/a/bcd"], none⟩
    (by decide) rfl (by decide) rfl
    ⟨"%bcd%".data, ["/a/bcd"], by decide, rfl, rfl,
      (by decide : selectLike asciiLower ["/a/bcd", "/a/xyz"] "%bcd%".data = ["/a/bcd"]) ▸
        List.Perm.refl _⟩⟩

end FsLocate
